import Mathlib

/-!
Shallow embedding of the resumable SSE client hook of this repository
(primary variant: `src/unnamed/part_000`, the rich `useSSE` hook; the
sibling `src/src/hooks/useSSE.js` shares the same parser and read-loop
structure).  JavaScript strings are modelled as `String` / `List Char`,
machine numbers as `Nat` / `Int` / `Rat`, callback invocations as an
explicit `Effect` trace, and the React refs/state as a `HookState`
record threaded through pure step functions.
-/

namespace SSE

/-! ## Line-level frame parser (part_000 lines 285-321)

The read loop splits the accumulated text on `'\n'`, keeps the trailing
partial line in `buffer`, trims each complete line and classifies it by
prefix.  Lines are modelled as `List Char`; chunks arrive as `String`s
(the output of `TextDecoder.decode`, which already handles UTF-8
boundaries, so byte-level decoding is abstracted away). -/

/-- Whitespace recognised by the model of `String.prototype.trim`
(space, tab, carriage return, line feed; the exotic Unicode spaces JS
also trims play no role in this protocol). -/
def isWsChar (c : Char) : Bool :=
  c = ' ' || c = '\t' || c = '\r' || c = '\n'

/-- Drop leading whitespace characters. -/
def dropWs : List Char → List Char
  | [] => []
  | c :: cs => if isWsChar c then dropWs cs else c :: cs

/-- Model of `line.trim()`: strip whitespace from both ends. -/
def trimChars (cs : List Char) : List Char :=
  (dropWs (dropWs cs).reverse).reverse

/-- Model of `s.startsWith(p)` (`hasPfx p s`). -/
def hasPfx : List Char → List Char → Bool
  | [], _ => true
  | _ :: _, [] => false
  | a :: as, b :: bs => a = b && hasPfx as bs

/-- Model of `s.split('\n')`: every `'\n'` separates segments, so a
trailing newline yields a trailing empty segment, and `""` yields
`[""]`, exactly as in JavaScript. -/
def splitNl : List Char → List (List Char)
  | [] => [[]]
  | c :: rest =>
    if c = '\n' then [] :: splitNl rest
    else
      match splitNl rest with
      | s :: ss => (c :: s) :: ss
      | [] => [[c]]

/-- Numeric value of a digit string. -/
def digitsVal (cs : List Char) : Nat :=
  cs.foldl (fun a c => 10 * a + (c.toNat - '0'.toNat)) 0

/-- Model of `parseInt(s, 10)`: skip leading whitespace, optional sign,
then the longest leading digit run; `none` when no digits (JS `NaN`). -/
def jsParseIntZ (cs : List Char) : Option Int :=
  let body := dropWs cs
  match body with
  | '-' :: rest =>
    let ds := rest.takeWhile Char.isDigit
    if ds.isEmpty then none else some (-(digitsVal ds : Int))
  | '+' :: rest =>
    let ds := rest.takeWhile Char.isDigit
    if ds.isEmpty then none else some (digitsVal ds)
  | _ =>
    let ds := body.takeWhile Char.isDigit
    if ds.isEmpty then none else some (digitsVal ds)

/-- Pending (per-frame) parser state: `eventData`, `eventType`,
`eventId` of part_000 lines 293-295. -/
structure Pending where
  data : List Char
  etype : List Char
  id : Option (List Char)
deriving DecidableEq, Repr

/-- Initial pending state: `eventData = ''`, `eventType = 'message'`,
`eventId = null`. -/
def initPending : Pending := ⟨[], "message".toList, none⟩

/-- One SSE frame as dispatched by the read loop. -/
structure Frame where
  etype : List Char
  id : Option (List Char)
  data : List Char
deriving DecidableEq, Repr

/-- One line's outcome: the new pending state, an emitted frame (on a
blank line with pending data), and a positive `retry:` value when the
line is a valid retry hint. -/
def processLine (p : Pending) (line : List Char) : Pending × Option Frame × Option Nat :=
  let t := trimChars line
  if t = [] then
    if p.data ≠ [] then (initPending, some ⟨p.etype, p.id, p.data⟩, none)
    else (initPending, none, none)
  else if hasPfx "data: ".toList t then
    ({ p with data := p.data ++ (if p.data ≠ [] then ['\n'] else []) ++ t.drop 6 }, none, none)
  else if hasPfx "event: ".toList t then
    ({ p with etype := t.drop 7 }, none, none)
  else if hasPfx "id: ".toList t then
    ({ p with id := some (t.drop 4) }, none, none)
  else if hasPfx "retry: ".toList t then
    (p, none,
      match jsParseIntZ (t.drop 7) with
      | some z => if 0 < z then some z.toNat else none
      | none => none)
  else (p, none, none)

/-- Cursor update performed right before dispatch (part_000 line 302:
`if (eventId) setLastEventId(eventId)`).  JavaScript truthiness: a
`null` or empty id leaves the cursor unchanged. -/
def stepCursor (c : Option (List Char)) (i : Option (List Char)) : Option (List Char) :=
  match i with
  | some x => if x = [] then c else some x
  | none => c

/-- Events observable from the read loop: a dispatched frame (paired
with the cursor value in force at its dispatch) or a retry-interval
notification. -/
inductive PEvent where
  | frameEv (f : Frame) (cur : Option (List Char))
  | retryEv (ms : Nat)
deriving DecidableEq, Repr

/-- Cons a retry notification if the line produced one. -/
def retryCons (o : Option Nat) (l : List PEvent) : List PEvent :=
  match o with
  | some n => PEvent.retryEv n :: l
  | none => l

/-- Process a list of complete lines: threads the cursor and the
pending frame state, emitting events in order (part_000 lines 297-320
together with the cursor update of line 302). -/
def processLines (c : Option (List Char)) (p : Pending) :
    List (List Char) → Option (List Char) × Pending × List PEvent
  | [] => (c, p, [])
  | l :: ls =>
    match processLine p l with
    | (p', some f, o) =>
      let c' := stepCursor c f.id
      let rest := processLines c' p' ls
      (rest.1, rest.2.1, PEvent.frameEv f c' :: retryCons o rest.2.2)
    | (p', none, o) =>
      let rest := processLines c p' ls
      (rest.1, rest.2.1, retryCons o rest.2.2)

/-- One iteration of the read loop on a decoded chunk: the held partial
line is prepended, the text is split on newlines, the trailing partial
line is retained, and — faithfully to the source, where `eventData`,
`eventType`, `eventId` are declared *inside* the `while` loop — the
pending frame state is re-initialised for every chunk. -/
def processChunk (c : Option (List Char)) (buf : List Char) (chunk : String) :
    Option (List Char) × List Char × List PEvent :=
  let parts := splitNl (buf ++ chunk.toList)
  let lines := parts.dropLast
  let buf' := parts.getLastD []
  let r := processLines c initPending lines
  (r.1, buf', r.2.2)

/-- Fold the read loop over a list of chunks, starting from cursor `c`
and partial-line buffer `buf`. -/
def processChunksAux (c : Option (List Char)) (buf : List Char) :
    List String → Option (List Char) × List Char × List PEvent
  | [] => (c, buf, [])
  | ch :: rest =>
    let r := processChunk c buf ch
    let r' := processChunksAux r.1 r.2.1 rest
    (r'.1, r'.2.1, r.2.2 ++ r'.2.2)

/-- Whole read loop on a chunked stream: initial cursor `null`, empty
line buffer. -/
def processChunks (chunks : List String) : Option (List Char) × List Char × List PEvent :=
  processChunksAux none [] chunks

/-- Extract the dispatch trace (frame, cursor at dispatch) from an
event list. -/
def traceOf (evs : List PEvent) : List (Frame × Option (List Char)) :=
  evs.filterMap fun e =>
    match e with
    | PEvent.frameEv f c => some (f, c)
    | PEvent.retryEv _ => none

/-- Dispatch trace of a chunked stream. -/
def dispatchTrace (chunks : List String) : List (Frame × Option (List Char)) :=
  traceOf (processChunks chunks).2.2

/-- Frames dispatched for a chunked stream. -/
def parseFrames (chunks : List String) : List Frame :=
  (dispatchTrace chunks).map Prod.fst

/-- Cursor value after a dispatch trace: each dispatched frame's id is
applied to the cursor in order (truthy ids overwrite, others keep). -/
def endCursor (c : Option (List Char)) (tr : List (Frame × Option (List Char))) :
    Option (List Char) :=
  tr.foldl (fun a fc => stepCursor a fc.1.id) c

/-- Correctness of a dispatch trace with respect to the cursor: the
cursor recorded at each dispatch equals the previous cursor updated by
the frame's id (so a frame with a truthy id is dispatched with the
cursor equal to that id, and a frame with a null id is dispatched with
the cursor unchanged, which then persists until the next dispatch). -/
def traceOK : Option (List Char) → List (Frame × Option (List Char)) → Prop
  | _, [] => True
  | c, fc :: rest => fc.2 = stepCursor c fc.1.id ∧ traceOK fc.2 rest

/-! ## Event dispatcher and connection session (part_000) -/

/-- Shape of a successfully `JSON.parse`d payload, restricted to the
fields the hook inspects: the `type` discriminator, the replay counters,
the server-error `message`, plus JavaScript truthiness of the whole
value (objects are truthy; `JSON.parse` can also yield falsy scalars). -/
structure Parsed where
  typeField : Option String
  totalEvents : Option Nat
  processedEvents : Option Nat
  message : Option String
  truthy : Bool
deriving DecidableEq, Repr

/-- The `data` React state slot: unset, a parsed payload, or the raw
string fallback after a parse failure. -/
inductive DataSlot where
  | noData
  | parsedData (p : Parsed)
  | rawData (s : String)
deriving DecidableEq, Repr

/-- `CONNECTION_STATES` enum. -/
inductive ConnState where
  | Disconnected
  | Connecting
  | Connected
  | Reconnecting
  | Failed
deriving DecidableEq, Repr

/-- `replayProgress` React state. -/
structure ReplayProgress where
  current : Nat
  total : Nat
  isReplaying : Bool
  startTime : Option Nat
  estimatedTimeRemaining : Option Rat
deriving DecidableEq, Repr

/-- Initial / reset replay progress. -/
def initReplayProgress : ReplayProgress := ⟨0, 0, false, none, none⟩

/-- `metricsRef` counters. -/
structure Metrics where
  totalEvents : Nat
  totalReconnects : Nat
  totalErrors : Nat
  averageEventSize : Rat
  connectionUptime : Nat
deriving DecidableEq, Repr

/-- Initial metrics. -/
def initMetrics : Metrics := ⟨0, 0, 0, 0, 0⟩

/-- One record of the event buffer (part_000 lines 180-186). -/
structure BufEntry where
  data : Parsed
  id : Option String
  timestamp : Nat
  etype : String
  size : Nat
deriving DecidableEq, Repr

/-- Caller-facing callback invocations, recorded as an effect trace. -/
inductive Effect where
  | onMessageParsed (p : Parsed) (etype : String) (id : Option String)
  | onMessageRaw (s : String) (etype : String) (id : Option String)
  | onParseError (raw : String)
  | onReplayStart (p : Parsed)
  | onReplayEnd (p : Parsed)
  | onHeartbeat (p : Parsed)
  | onServerError (p : Parsed)
  | onDuplicateConnection
  | onNetworkUnavailable
  | onResumeFromLastEvent (id : String)
  | requestIssued
  | onOpen (connectionCount : Nat) (resumedFrom : Option String)
  | onClose (reason : String) (uptime : Nat)
  | onError (errType : String) (attempt maxAttempts : Nat)
  | onReconnectAttempt (attempt : Nat)
  | onReconnectFailed (attempt : Nat)
  | onRetryIntervalUpdate (ms : Nat)
deriving DecidableEq, Repr

/-- The hook's mutable state: React state plus refs.  `sessionHandle`
models `abortControllerRef.current !== null`, `requestAborted` whether
`abort()` has been called on that controller, `reconnectTimer` a
pending `reconnectTimeoutRef`, `requestCount` a ghost counter of
issued `fetch` calls. -/
structure HookState where
  connectionState : ConnState
  error : Option String
  lastEventId : Option String
  connectionCount : Nat
  replayProgress : ReplayProgress
  dataSlot : DataSlot
  sessionHandle : Bool
  requestAborted : Bool
  reconnectTimer : Bool
  reconnectAttempts : Nat
  eventBuffer : List BufEntry
  connectionStartTime : Option Nat
  lastHeartbeat : Nat
  metrics : Metrics
  online : Bool
  requestCount : Nat
deriving DecidableEq, Repr

/-- Initial hook state (all React state at its `useState` defaults,
online). -/
def initHookState : HookState :=
  ⟨ConnState.Disconnected, none, none, 0, initReplayProgress, DataSlot.noData,
   false, false, false, 0, [], none, 0, initMetrics, true, 0⟩

/-- External environment of one step: the `JSON.parse` oracle (`none`
models a thrown `SyntaxError`), the `JSON.stringify(·).length` measure,
the current `Date.now()`, and the configuration options in force. -/
structure Env where
  decode : String → Option Parsed
  sLen : Parsed → Nat
  now : Nat
  maxBufferSize : Nat
  enableMetrics : Bool
  reconnectEnabled : Bool
  maxReconnectAttempts : Nat

/-- Modelled from the spec: the `EVENT_TYPES` control vocabulary lives
in `src/utils/constants.js`, which is absent from `src/`; the values
follow the spec's control vocabulary (§4.2). -/
def EventTypes.replayStart : String := "replay_start"

/-- Modelled from the spec: see `EventTypes.replayStart`. -/
def EventTypes.replayEnd : String := "replay_end"

/-- Modelled from the spec: see `EventTypes.replayStart`. -/
def EventTypes.replayProgress : String := "replay_progress"

/-- Modelled from the spec: see `EventTypes.replayStart`. -/
def EventTypes.heartbeat : String := "heartbeat"

/-- Modelled from the spec: see `EventTypes.replayStart`. -/
def EventTypes.errorTy : String := "error"

/-- JavaScript `o || d` for an optional string (`undefined`, `null` and
`""` are falsy). -/
def jsOrStr (o : Option String) (d : String) : String :=
  match o with
  | some s => if s = "" then d else s
  | none => d

/-- JavaScript `o || d` for an optional number (`undefined`, `null` and
`0` are falsy). -/
def jsOrNat (o : Option Nat) (d : Nat) : Nat :=
  match o with
  | some n => if n = 0 then d else n
  | none => d

/-- `Math.floor(m * 0.8)` for the natural-number buffer capacities in
use (equal to `4 * m / 5` for every such capacity). -/
def floor08 (m : Nat) : Nat := 4 * m / 5

/-- JavaScript `xs.slice(-k)`: the last `k` elements — except that
`-0 === 0`, so `k = 0` returns the whole array. -/
def jsSliceLast (xs : List BufEntry) (k : Nat) : List BufEntry :=
  if k = 0 then xs else xs.drop (xs.length - k)

/-- `updateMetrics('event', data)` (part_000 lines 96-103). -/
def updateMetricsEvent (env : Env) (st : HookState) (p : Parsed) : HookState :=
  if env.enableMetrics then
    let m := st.metrics
    let m := { m with totalEvents := m.totalEvents + 1 }
    let m :=
      if p.truthy then
        { m with averageEventSize := (m.averageEventSize + (env.sLen p : Rat)) / 2 }
      else m
    { st with metrics := m }
  else st

/-- `processEventData` (part_000 lines 119-202): JSON-decode the frame
payload; route control events by the `parsed.type || eventType`
discriminator; otherwise treat it as an application message (latest-data
slot, metrics, bounded event buffer, `onMessage`); on decode failure
fall back to raw-string delivery plus `onParseError`. -/
def processEventData (env : Env) (st : HookState)
    (eventData etype : String) (eventId : Option String) : HookState × List Effect :=
  match env.decode eventData with
  | none =>
    ({ st with dataSlot := DataSlot.rawData eventData },
     [Effect.onMessageRaw eventData etype eventId, Effect.onParseError eventData])
  | some parsed =>
    let discr := jsOrStr parsed.typeField etype
    if discr = EventTypes.replayStart then
      ({ st with replayProgress :=
          ⟨0, parsed.totalEvents.getD 0, true, some env.now, none⟩ },
       [Effect.onReplayStart parsed])
    else if discr = EventTypes.replayEnd then
      ({ st with replayProgress := initReplayProgress }, [Effect.onReplayEnd parsed])
    else if discr = EventTypes.replayProgress then
      let prev := st.replayProgress
      let current := jsOrNat parsed.processedEvents (prev.current + 1)
      let elapsed : Rat := (env.now : Rat) - (prev.startTime.getD 0 : Nat)
      let rate : Rat := (current : Rat) / (elapsed / 1000)
      let est : Rat := ((prev.total : Rat) - (current : Rat)) / rate * 1000
      ({ st with replayProgress :=
          { prev with current := current,
                      estimatedTimeRemaining := if 0 < est then some est else none } },
       [])
    else if discr = EventTypes.heartbeat then
      ({ st with lastHeartbeat := env.now }, [Effect.onHeartbeat parsed])
    else if discr = EventTypes.errorTy then
      ({ st with error := some (jsOrStr parsed.message "Server error") },
       [Effect.onServerError parsed])
    else
      let st1 := { st with dataSlot := DataSlot.parsedData parsed }
      let st2 := updateMetricsEvent env st1 parsed
      let entry : BufEntry := ⟨parsed, eventId, env.now, etype, env.sLen parsed⟩
      let buf1 := st2.eventBuffer ++ [entry]
      let buf2 :=
        if env.maxBufferSize < buf1.length then jsSliceLast buf1 (floor08 env.maxBufferSize)
        else buf1
      ({ st2 with eventBuffer := buf2 }, [Effect.onMessageParsed parsed etype eventId])

/-- Synchronous prefix of `connect` (part_000 lines 205-260): missing
URL, duplicate-session guard, offline guard; otherwise transition to
`Connecting`, install a fresh session handle, build the resume header,
clear the error, record the start time, bump the connection counter and
issue the streaming request (`requestIssued`). -/
def connectStep (env : Env) (url : Option String) (st : HookState) : HookState × List Effect :=
  match url with
  | none => ({ st with error := some "URL이 제공되지 않았습니다" }, [])
  | some _ =>
    if st.sessionHandle then (st, [Effect.onDuplicateConnection])
    else if !st.online then
      ({ st with error := some "네트워크 연결을 확인해주세요" }, [Effect.onNetworkUnavailable])
    else
      let resumeEffs :=
        match st.lastEventId with
        | some i => [Effect.onResumeFromLastEvent i]
        | none => []
      ({ st with connectionState := ConnState.Connecting,
                 sessionHandle := true,
                 requestAborted := false,
                 error := none,
                 connectionStartTime := some env.now,
                 connectionCount := st.connectionCount + 1,
                 requestCount := st.requestCount + 1 },
       resumeEffs ++ [Effect.requestIssued])

/-- `disconnect` (part_000 lines 438-462): clear any pending reconnect
timer, null out the abort-controller reference — the source does *not*
call `.abort()` on it, so `requestAborted` is left untouched —
transition to `Disconnected`, clear the error, reset replay progress,
and notify the caller of a manual close with the measured uptime. -/
def disconnectStep (env : Env) (st : HookState) : HookState × List Effect :=
  ({ st with reconnectTimer := false,
             sessionHandle := false,
             connectionState := ConnState.Disconnected,
             error := none,
             replayProgress := initReplayProgress },
   [Effect.onClose "manual"
      (match st.connectionStartTime with
       | some t0 => env.now - t0
       | none => 0)])

/-- Per-dispatch step of the read loop (part_000 lines 300-304): update
the cursor from a truthy frame id, then hand the frame to
`processEventData`. -/
def dispatchFrame (env : Env) (st : HookState) (f : Frame) : HookState × List Effect :=
  let st1 :=
    match f.id with
    | some x => if x = [] then st else { st with lastEventId := some x.asString }
    | none => st
  processEventData env st1 f.data.asString f.etype.asString (f.id.map List.asString)

/-- Run the read-loop events (dispatches and retry hints) over the hook
state, collecting effects in order. -/
def runEvents (env : Env) (st : HookState) : List PEvent → HookState × List Effect
  | [] => (st, [])
  | PEvent.frameEv f _ :: rest =>
    let r := dispatchFrame env st f
    let r' := runEvents env r.1 rest
    (r'.1, r.2 ++ r'.2)
  | PEvent.retryEv n :: rest =>
    let r' := runEvents env st rest
    (r'.1, Effect.onRetryIntervalUpdate n :: r'.2)

/-- `finally` clause of `connect` (part_000 lines 352-361): only when
the current controller exists and its signal was aborted does the
session transition to `Disconnected`, notify `onClose("aborted")` and
drop the handle. -/
def finallyStep (env : Env) (st : HookState) : HookState × List Effect :=
  if st.sessionHandle && st.requestAborted then
    ({ st with connectionState := ConnState.Disconnected, sessionHandle := false },
     [Effect.onClose "aborted"
        (match st.connectionStartTime with
         | some t0 => env.now - t0
         | none => 0)])
  else (st, [])

/-- State updates on a successful response (part_000 lines 272-279):
transition to `Connected`, zero the attempt counter, refresh the
heartbeat stamp, update the connection-uptime metric. -/
def openState (env : Env) (st : HookState) : HookState :=
  let m := st.metrics
  let m :=
    if env.enableMetrics then
      { m with connectionUptime :=
          match st.connectionStartTime with
          | some t0 => env.now - t0
          | none => m.connectionUptime }
    else m
  { st with connectionState := ConnState.Connected,
            reconnectAttempts := 0,
            lastHeartbeat := env.now,
            metrics := m }

/-- The session from a successful response onward, for a stream whose
reader eventually reports `done` with no abort requested (part_000
lines 272-321 then 352-361): open, notify `onOpen`, run the read loop
over the chunks, and — since `if (done) break` leaves the `try` block
normally — skip the `catch` entirely and run only the `finally`
clause. -/
def sessionCleanEnd (env : Env) (st : HookState) (chunks : List String) :
    HookState × List Effect :=
  let stOpen := openState env st
  let r := runEvents env stOpen (processChunks chunks).2.2
  let fin := finallyStep env r.1
  (fin.1, Effect.onOpen stOpen.connectionCount st.lastEventId :: (r.2 ++ fin.2))

/-- Fold `processEventData` over a list of frames given as
`(eventData, eventType, eventId)` triples (dispatch only, no cursor). -/
def processFramesD (env : Env) (st : HookState)
    (xs : List (String × String × Option String)) : HookState :=
  xs.foldl (fun s x => (processEventData env s x.1 x.2.1 x.2.2).1) st

/-- One row of `SSE_CONFIG.RECONNECT_DELAYS`. -/
structure BackoffConfig where
  base : Rat
  max : Rat
  multiplier : Rat
deriving DecidableEq, Repr

/-- `getReconnectDelay` (part_000 lines 64-77): look up the class's
backoff row (falling back to the default row), cap the exponential
delay at `max`; offline doubles the capped delay, online adds the
jitter draw `jitter` (the value of `Math.random() * 1000`). -/
def getReconnectDelay (table : String → Option BackoffConfig) (dflt : BackoffConfig)
    (errType : String) (attempt : Nat) (isOnline : Bool) (jitter : Rat) : Rat :=
  let config := (table errType).getD dflt
  let delay := min (config.base * config.multiplier ^ (attempt - 1)) config.max
  if !isOnline then delay * 2
  else delay + jitter

/-- Modelled from the spec: the post-trim buffer length the spec's
testable property asserts, `floor(max * 0.8) + 1` (§8).  Stated
separately only to be compared against the trim the code performs. -/
def specTrimLen (m : Nat) : Nat := floor08 m + 1

/-- Effects that belong to the connection-level error / reconnection
path: the `onError` notification and the reconnection-policy callbacks. -/
def connFailureEffect : Effect → Bool
  | Effect.onError _ _ _ => true
  | Effect.onReconnectAttempt _ => true
  | Effect.onReconnectFailed _ => true
  | _ => false

/-- An application payload (no `type` discriminator). -/
def appPayload : Parsed := ⟨none, none, none, none, true⟩

/-- Environment with capacity 10 whose decode oracle always yields the
application payload (metrics off). -/
def envApp10 : Env := ⟨fun _ => some appPayload, fun _ => 1, 0, 10, false, true, 5⟩

/-- Environment whose decode oracle always fails (raw-string fallback),
at time 0. -/
def envRaw : Env := ⟨fun _ => none, fun _ => 0, 0, 10, false, true, 5⟩

/-- Environment like `envRaw` but at time 5100. -/
def envLate : Env := ⟨fun _ => none, fun _ => 0, 5100, 10, true, true, 5⟩

/-- A state with a session in flight: connected, un-aborted handle,
a pending reconnect timer, connection started at time 100. -/
def inFlightState : HookState :=
  { initHookState with connectionState := ConnState.Connected,
                       sessionHandle := true,
                       requestAborted := false,
                       reconnectTimer := true,
                       connectionStartTime := some 100,
                       requestCount := 1 }

/-- The state right after a successful `connectStep` from the initial
state. -/
def stAfterConnect : HookState :=
  (connectStep envRaw (some "http://localhost:8090/sse") initHookState).1

/-! ## Claim theorems -/

/-- C6: for every backoff table row `{base, max, multiplier}` reachable
for the error class, every attempt `N ≥ 1` and every jitter draw
`j ∈ [0, 1000)`: the capped delay `min(base * multiplier^(N-1), max)`
never exceeds `max`; online the computed delay is exactly the capped
delay plus the jitter, hence lies in `[capped, capped + 1000)`; offline
it is exactly twice the capped delay with no jitter. -/
theorem reconnectDelay_backoff_spec (table : String → Option BackoffConfig)
    (dflt : BackoffConfig) (et : String) (N : Nat) (isOnline : Bool) (j : Rat)
    (hN : 1 ≤ N) (hj0 : 0 ≤ j) (hj1 : j < 1000) :
    min (((table et).getD dflt).base * ((table et).getD dflt).multiplier ^ (N - 1))
        ((table et).getD dflt).max ≤ ((table et).getD dflt).max ∧
    (isOnline = true →
      getReconnectDelay table dflt et N isOnline j =
        min (((table et).getD dflt).base * ((table et).getD dflt).multiplier ^ (N - 1))
          ((table et).getD dflt).max + j ∧
      min (((table et).getD dflt).base * ((table et).getD dflt).multiplier ^ (N - 1))
          ((table et).getD dflt).max ≤ getReconnectDelay table dflt et N isOnline j ∧
      getReconnectDelay table dflt et N isOnline j <
        min (((table et).getD dflt).base * ((table et).getD dflt).multiplier ^ (N - 1))
          ((table et).getD dflt).max + 1000) ∧
    (isOnline = false →
      getReconnectDelay table dflt et N isOnline j =
        2 * min (((table et).getD dflt).base * ((table et).getD dflt).multiplier ^ (N - 1))
          ((table et).getD dflt).max) := by
  refine ⟨min_le_right _ _, ?_, ?_⟩
  · intro h
    subst h
    have hd : getReconnectDelay table dflt et N true j =
        min (((table et).getD dflt).base * ((table et).getD dflt).multiplier ^ (N - 1))
          ((table et).getD dflt).max + j := rfl
    exact ⟨hd, by rw [hd]; linarith, by rw [hd]; linarith⟩
  · intro h
    subst h
    have hd : getReconnectDelay table dflt et N false j =
        min (((table et).getD dflt).base * ((table et).getD dflt).multiplier ^ (N - 1))
          ((table et).getD dflt).max * 2 := rfl
    rw [hd]
    ring

/-- Backoff row used in the C6 witness. -/
def serverErrorCfg : BackoffConfig := ⟨1000, 30000, 2⟩

/-- Empty backoff table (every class falls back to the default row). -/
def emptyTable : String → Option BackoffConfig := fun _ => none

/-- C6 witness: row `{base 1000, max 30000, mult 2}`, attempt 3, jitter
500: online delay `4000 + 500 = 4500`, offline delay `8000`. -/
theorem reconnectDelay_backoff_spec_witness :
    ((1 : Nat) ≤ 3 ∧ (0 : Rat) ≤ 500 ∧ (500 : Rat) < 1000) ∧
    getReconnectDelay emptyTable serverErrorCfg "server_error" 3 true 500 = 4500 ∧
    getReconnectDelay emptyTable serverErrorCfg "server_error" 3 false 500 = 8000 := by
  have h1 := (reconnectDelay_backoff_spec emptyTable serverErrorCfg "server_error" 3
    true 500 (by norm_num) (by norm_num) (by norm_num)).2.1 rfl
  have h2 := (reconnectDelay_backoff_spec emptyTable serverErrorCfg "server_error" 3
    false 500 (by norm_num) (by norm_num) (by norm_num)).2.2 rfl
  refine ⟨⟨by norm_num, by norm_num, by norm_num⟩, ?_, ?_⟩
  · rw [h1.1]
    norm_num [emptyTable, serverErrorCfg, min_def]
  · rw [h2]
    norm_num [emptyTable, serverErrorCfg, min_def]

/-- C8: when the frame's payload fails JSON decoding, the dispatcher
delivers the raw string via `onMessage` with the frame's type/id
metadata and reports `onParseError`; the connection state, reconnect
timer and event buffer are untouched and no connection-level error or
reconnection effect is produced. -/
theorem parseFailure_raw_fallback (env : Env) (st : HookState)
    (eventData etype : String) (eventId : Option String)
    (h : env.decode eventData = none) :
    processEventData env st eventData etype eventId =
      ({ st with dataSlot := DataSlot.rawData eventData },
       [Effect.onMessageRaw eventData etype eventId, Effect.onParseError eventData]) ∧
    (processEventData env st eventData etype eventId).1.connectionState =
      st.connectionState ∧
    (processEventData env st eventData etype eventId).1.reconnectTimer =
      st.reconnectTimer ∧
    (processEventData env st eventData etype eventId).1.eventBuffer = st.eventBuffer ∧
    ((processEventData env st eventData etype eventId).2.all
      fun e => !connFailureEffect e) = true := by
  unfold processEventData
  rw [h]
  exact ⟨rfl, rfl, rfl, rfl, rfl⟩

/-- C8 witness: a failing decode on a concrete frame. -/
theorem parseFailure_raw_fallback_witness :
    processEventData envRaw initHookState "oops" "message" (some "3") =
      ({ initHookState with dataSlot := DataSlot.rawData "oops" },
       [Effect.onMessageRaw "oops" "message" (some "3"), Effect.onParseError "oops"]) :=
  (parseFailure_raw_fallback envRaw initHookState "oops" "message" (some "3") rfl).1

/-- C4: from a ready state (no live session, online, URL configured) a
first `connect` issues exactly one request; a second `connect` without
an intervening `disconnect` changes no state, issues no request, and
produces exactly the single `onDuplicateConnection` notification. -/
theorem duplicateConnect_noop (env : Env) (u : String) (st : HookState)
    (h1 : st.sessionHandle = false) (h2 : st.online = true) :
    (connectStep env (some u) (connectStep env (some u) st).1).1 =
      (connectStep env (some u) st).1 ∧
    (connectStep env (some u) (connectStep env (some u) st).1).2 =
      [Effect.onDuplicateConnection] ∧
    (connectStep env (some u) st).1.requestCount = st.requestCount + 1 ∧
    (connectStep env (some u) (connectStep env (some u) st).1).1.requestCount =
      st.requestCount + 1 := by
  unfold connectStep
  simp [h1, h2]

/-- C4 witness: two connects from the initial state. -/
theorem duplicateConnect_noop_witness :
    (connectStep envRaw (some "http://localhost:8090/sse")
      (connectStep envRaw (some "http://localhost:8090/sse") initHookState).1).2 =
      [Effect.onDuplicateConnection] ∧
    (connectStep envRaw (some "http://localhost:8090/sse") initHookState).1.requestCount =
      initHookState.requestCount + 1 := by
  have h := duplicateConnect_noop envRaw "http://localhost:8090/sse" initHookState rfl rfl
  exact ⟨h.2.1, h.2.2.1⟩

/-- C3: `disconnect()` on an in-flight session clears the reconnect
timer and the session handle, transitions to `Disconnected`, resets
replay progress, and emits exactly one `onClose("manual", uptime)` — but
it never calls `.abort()` on the controller (part_000 lines 444-446 only
null the reference), so the in-flight request is left un-aborted,
contradicting the claim. -/
theorem disconnect_leaves_request_unaborted :
    (disconnectStep envLate inFlightState).1.requestAborted = false ∧
    (disconnectStep envLate inFlightState).1.sessionHandle = false ∧
    (disconnectStep envLate inFlightState).1.reconnectTimer = false ∧
    (disconnectStep envLate inFlightState).1.connectionState = ConnState.Disconnected ∧
    (disconnectStep envLate inFlightState).1.replayProgress = initReplayProgress ∧
    (disconnectStep envLate inFlightState).1.error = none ∧
    (disconnectStep envLate inFlightState).2 = [Effect.onClose "manual" 5000] := by
  refine ⟨rfl, rfl, rfl, rfl, rfl, rfl, ?_⟩
  decide

/-- C9 counterexample: `disconnect()` on the already-disconnected
initial state leaves the state unchanged but still emits an
`onClose("manual", 0)` notification — it is not notification-free. -/
theorem disconnect_on_disconnected_notifies :
    (disconnectStep envLate initHookState).1 = initHookState ∧
    (disconnectStep envLate initHookState).2 = [Effect.onClose "manual" 0] ∧
    (disconnectStep envLate initHookState).2 ≠ [] := by
  refine ⟨?_, ?_, ?_⟩ <;> decide

/-- C9 amended: on an already-disconnected session (no handle, no
pending timer, `Disconnected`, error and replay progress already at
their reset values) `disconnect()` changes no observable state, but it
does emit one `onClose` notification with reason `"manual"`. -/
theorem disconnect_idempotent_state_only (env : Env) (st : HookState)
    (h1 : st.sessionHandle = false) (h2 : st.reconnectTimer = false)
    (h3 : st.connectionState = ConnState.Disconnected) (h4 : st.error = none)
    (h5 : st.replayProgress = initReplayProgress) :
    (disconnectStep env st).1 = st ∧
    (disconnectStep env st).2 =
      [Effect.onClose "manual"
        (match st.connectionStartTime with
         | some t0 => env.now - t0
         | none => 0)] := by
  cases st
  simp only [disconnectStep] at *
  simp_all

/-- C9 amended witness: the initial state. -/
theorem disconnect_idempotent_state_only_witness :
    (disconnectStep envLate initHookState).1 = initHookState :=
  (disconnect_idempotent_state_only envLate initHookState rfl rfl rfl rfl rfl).1

/-- C2: the same byte stream `"data: a\n\n"` dispatches one frame when
delivered whole (a split at the frame boundary) but no frame at all
when split after the first newline, because the pending frame fields
are re-initialised on every chunk (they are declared inside the read
loop); chunk-boundary invariance fails. -/
theorem chunk_split_loses_frame :
    parseFrames ["data: a\n", "\n"] = [] ∧
    parseFrames ["data: a\n\n"] = [⟨"message".toList, none, "a".toList⟩] ∧
    "data: a\n" ++ "\n" = "data: a\n\n" := by
  refine ⟨?_, ?_, ?_⟩ <;> decide

/-- C5 counterexample: with capacity 10, the 11th application message
overflows the buffer and the code trims to `slice(-8)`, leaving length
`8 = floor(10 * 0.8)`, not the claimed `floor(10 * 0.8) + 1 = 9`. -/
theorem bufferTrim_not_specTrimLen :
    (processFramesD envApp10 initHookState
      (List.replicate 11 ("x", "message", none))).eventBuffer.length = 8 ∧
    specTrimLen 10 = 9 ∧ (8 : Nat) ≠ 9 := by
  refine ⟨?_, ?_, ?_⟩ <;> decide

/-- Metrics updates never touch the event buffer. -/
theorem updateMetricsEvent_eventBuffer (env : Env) (st : HookState) (p : Parsed) :
    (updateMetricsEvent env st p).eventBuffer = st.eventBuffer := by
  unfold updateMetricsEvent
  split_ifs <;> rfl

/-- One dispatch preserves the buffer bound (for capacities of at least
2, where `floor(max * 0.8) ≥ 1` so the `slice(-0)` corner of JS cannot
occur). -/
theorem processEventData_buffer_le (env : Env) (st : HookState)
    (d t : String) (i : Option String)
    (h2 : 2 ≤ env.maxBufferSize)
    (h : st.eventBuffer.length ≤ env.maxBufferSize) :
    (processEventData env st d t i).1.eventBuffer.length ≤ env.maxBufferSize := by
  unfold processEventData
  cases hdec : env.decode d with
  | none => simpa using h
  | some p =>
    simp only
    split_ifs <;> try exact h
    · rw [updateMetricsEvent_eventBuffer] at *
      simp only [jsSliceLast, floor08, List.length_append, List.length_cons,
        List.length_nil] at *
      split_ifs
        <;> simp only [List.length_drop, List.length_append, List.length_cons,
              List.length_nil]
        <;> omega
    · rw [updateMetricsEvent_eventBuffer] at *
      simp only [List.length_append, List.length_cons, List.length_nil] at *
      omega

/-- The buffer bound is preserved along any sequence of dispatches. -/
theorem processFramesD_buffer_le (env : Env)
    (h2 : 2 ≤ env.maxBufferSize) (st : HookState)
    (h : st.eventBuffer.length ≤ env.maxBufferSize)
    (xs : List (String × String × Option String)) :
    (processFramesD env st xs).eventBuffer.length ≤ env.maxBufferSize := by
  induction xs generalizing st with
  | nil => exact h
  | cons x xs ih =>
    exact ih _ (processEventData_buffer_le env st x.1 x.2.1 x.2.2 h2 h)

/-- C5 amended: for every configured capacity `max ≥ 2`, the event
buffer length never exceeds `max` along any sequence of dispatched
frames; and an application message arriving when the buffer is full
(length = `max`) trims it so that the new length equals
`floor(max * 0.8)` — not `floor(max * 0.8) + 1` as the spec states. -/
theorem eventBuffer_bounded (env : Env) (st : HookState)
    (xs : List (String × String × Option String))
    (h2 : 2 ≤ env.maxBufferSize)
    (h : st.eventBuffer.length ≤ env.maxBufferSize) :
    (processFramesD env st xs).eventBuffer.length ≤ env.maxBufferSize ∧
    (∀ d t i p, env.decode d = some p →
      jsOrStr p.typeField t ∉ [EventTypes.replayStart, EventTypes.replayEnd,
        EventTypes.replayProgress, EventTypes.heartbeat, EventTypes.errorTy] →
      st.eventBuffer.length = env.maxBufferSize →
      (processEventData env st d t i).1.eventBuffer.length =
        floor08 env.maxBufferSize) := by
  refine ⟨processFramesD_buffer_le env h2 st h xs, ?_⟩
  intro d t i p hdec hctl hfull
  simp only [List.mem_cons, List.not_mem_nil, or_false, not_or] at hctl
  obtain ⟨n1, n2, n3, n4, n5⟩ := hctl
  unfold processEventData
  rw [hdec]
  simp only
  rw [if_neg n1, if_neg n2, if_neg n3, if_neg n4, if_neg n5]
  simp only [updateMetricsEvent_eventBuffer, jsSliceLast, floor08,
    List.length_append, List.length_cons, List.length_nil]
  split_ifs
    <;> simp only [List.length_drop, List.length_append, List.length_cons,
          List.length_nil]
    <;> omega

/-- C5 amended witness: capacity 10, eleven application messages; final
length 8 and the full-buffer step trims to 8. -/
theorem eventBuffer_bounded_witness :
    (processFramesD envApp10 initHookState
      (List.replicate 11 ("x", "message", none))).eventBuffer.length ≤ 10 := by
  have h := eventBuffer_bounded envApp10 initHookState
    (List.replicate 11 ("x", "message", none)) (by norm_num [envApp10])
    (by simp [initHookState])
  exact h.1

/-- C10: a blank line always resets the pending frame state to its
defaults (`eventType = "message"`, `id = null`, `data = ""`), emitting a
frame only when pending data was non-empty; consequently `event:` and
`id:` lines followed by a blank line with no `data:` line are discarded
and do not affect the next emitted frame, as the concrete run shows. -/
theorem blank_line_resets_pending (p : Pending) (line : List Char)
    (h : trimChars line = []) :
    (processLine p line).1 = initPending ∧
    ((processLine p line).2.1 = none ↔ p.data = []) ∧
    traceOf (processLines none initPending
      ["event: custom".toList, "id: 7".toList, [], "data: x".toList, []]).2.2 =
      [(⟨"message".toList, none, "x".toList⟩, none)] := by
  refine ⟨?_, ?_, by decide⟩
  · unfold processLine
    rw [h]
    by_cases hdata : p.data = [] <;> simp [hdata]
  · unfold processLine
    rw [h]
    by_cases hdata : p.data = [] <;> simp [hdata]

/-- C10 witness: a whitespace-only line with pending `event:`/`id:`/
`data:` state resets everything and emits the pending frame. -/
theorem blank_line_resets_pending_witness :
    (processLine ⟨"d".toList, "t".toList, some "9".toList⟩ [' ']).1 = initPending := by
  exact (blank_line_resets_pending ⟨"d".toList, "t".toList, some "9".toList⟩ [' ']
    (by decide)).1

/-- Retry events never contribute dispatch-trace entries. -/
theorem traceOf_retryCons (o : Option Nat) (evs : List PEvent) :
    traceOf (retryCons o evs) = traceOf evs := by
  cases o <;> rfl

/-- Dispatch-trace entry of a frame event. -/
theorem traceOf_cons_frame (f : Frame) (c : Option (List Char)) (evs : List PEvent) :
    traceOf (PEvent.frameEv f c :: evs) = (f, c) :: traceOf evs := rfl

/-- Dispatch traces concatenate. -/
theorem traceOf_append (a b : List PEvent) :
    traceOf (a ++ b) = traceOf a ++ traceOf b :=
  List.filterMap_append a b _

/-- The end cursor of a concatenated trace. -/
theorem endCursor_append (c : Option (List Char))
    (t1 t2 : List (Frame × Option (List Char))) :
    endCursor c (t1 ++ t2) = endCursor (endCursor c t1) t2 :=
  List.foldl_append _ _ t1 t2

/-- Trace correctness glues across concatenation at the end cursor. -/
theorem traceOK_append {c : Option (List Char)}
    {t1 t2 : List (Frame × Option (List Char))}
    (h1 : traceOK c t1) (h2 : traceOK (endCursor c t1) t2) :
    traceOK c (t1 ++ t2) := by
  induction t1 generalizing c with
  | nil => simpa [endCursor] using h2
  | cons fc t1 ih =>
    obtain ⟨he, ht⟩ := h1
    have hend : endCursor c (fc :: t1) = endCursor fc.2 t1 := by
      simp only [endCursor, List.foldl_cons, ← he]
    rw [hend] at h2
    exact ⟨he, ih ht h2⟩

/-- The line loop produces a cursor-correct dispatch trace and returns
the trace's end cursor. -/
theorem processLines_trace (ls : List (List Char)) :
    ∀ c p, traceOK c (traceOf (processLines c p ls).2.2) ∧
    (processLines c p ls).1 = endCursor c (traceOf (processLines c p ls).2.2) := by
  induction ls with
  | nil => exact fun c p => ⟨trivial, rfl⟩
  | cons l ls ih =>
    intro c p
    rcases hpl : processLine p l with ⟨p', fr, o⟩
    cases fr with
    | some f =>
      have h := ih (stepCursor c f.id) p'
      simp only [processLines, hpl, traceOf_cons_frame, traceOf_retryCons]
      exact ⟨⟨rfl, h.1⟩, h.2⟩
    | none =>
      have h := ih c p'
      simp only [processLines, hpl, traceOf_retryCons]
      exact ⟨h.1, h.2⟩

/-- A matched prefix decomposes the string. -/
theorem hasPfx_exists {pfx s : List Char} (h : hasPfx pfx s = true) :
    ∃ r, s = pfx ++ r := by
  induction pfx generalizing s with
  | nil => exact ⟨s, rfl⟩
  | cons a as ih =>
    cases s with
    | nil => simp [hasPfx] at h
    | cons b bs =>
      simp only [hasPfx, Bool.and_eq_true, decide_eq_true_eq] at h
      obtain ⟨r, hr⟩ := ih h.2
      exact ⟨r, by rw [List.cons_append, hr, h.1]⟩

/-- The head of `dropWs` output is never whitespace. -/
theorem dropWs_head (l : List Char) :
    ∀ c, (dropWs l).head? = some c → isWsChar c = false := by
  induction l with
  | nil => intro c h; simp [dropWs] at h
  | cons a as ih =>
    intro c h
    by_cases ha : isWsChar a = true
    · rw [dropWs, if_pos ha] at h
      exact ih c h
    · rw [dropWs, if_neg ha] at h
      simp only [List.head?_cons, Option.some.injEq] at h
      subst h
      simpa using ha

/-- A trimmed line never ends in whitespace. -/
theorem trimChars_last (cs : List Char) :
    ∀ c, (trimChars cs).getLast? = some c → isWsChar c = false := by
  intro c h
  unfold trimChars at h
  rw [List.getLast?_reverse] at h
  exact dropWs_head _ c h

/-- On a trimmed line matching `id: `, the extracted id is non-empty
(a line consisting of just `id: ` would have trimmed away the trailing
space). -/
theorem id_suffix_ne_nil {t : List Char} (hp : hasPfx "id: ".toList t = true)
    (hlast : ∀ c, t.getLast? = some c → isWsChar c = false) :
    t.drop 4 ≠ [] := by
  obtain ⟨r, hr⟩ := hasPfx_exists hp
  subst hr
  intro hcontra
  have hrr : r = [] := by simpa using hcontra
  subst hrr
  have hws := hlast ' ' (by decide)
  simp [isWsChar] at hws

/-- One parsed line preserves non-emptiness of the pending id, and any
emitted frame carries a non-empty id (when present). -/
theorem processLine_good (p : Pending) (l : List Char) (hp : p.id ≠ some []) :
    (processLine p l).1.id ≠ some [] ∧
    ∀ f, (processLine p l).2.1 = some f → f.id ≠ some [] := by
  unfold processLine
  by_cases hb : trimChars l = []
  · rw [if_pos hb]
    by_cases hd : p.data ≠ []
    · rw [if_pos hd]
      refine ⟨by simp [initPending], ?_⟩
      intro f hf
      have hf' : (⟨p.etype, p.id, p.data⟩ : Frame) = f := Option.some.inj hf
      rw [← hf']
      exact hp
    · rw [if_neg hd]
      exact ⟨by simp [initPending], by simp⟩
  · rw [if_neg hb]
    by_cases hdp : hasPfx "data: ".toList (trimChars l) = true
    · rw [if_pos hdp]
      exact ⟨hp, by simp⟩
    · rw [if_neg hdp]
      by_cases hep : hasPfx "event: ".toList (trimChars l) = true
      · rw [if_pos hep]
        exact ⟨hp, by simp⟩
      · rw [if_neg hep]
        by_cases hip : hasPfx "id: ".toList (trimChars l) = true
        · rw [if_pos hip]
          refine ⟨?_, by simp⟩
          simp only [ne_eq, Option.some.injEq]
          exact fun hdrop => id_suffix_ne_nil hip (trimChars_last l) hdrop
        · rw [if_neg hip]
          by_cases hrp : hasPfx "retry: ".toList (trimChars l) = true
          · rw [if_pos hrp]
            exact ⟨hp, by simp⟩
          · rw [if_neg hrp]
            exact ⟨hp, by simp⟩

/-- Every frame in a line loop's dispatch trace carries a non-empty id
(when present), given the incoming pending id is non-empty. -/
theorem processLines_good (ls : List (List Char)) :
    ∀ c p, p.id ≠ some [] →
    ∀ fc ∈ traceOf (processLines c p ls).2.2, fc.1.id ≠ some [] := by
  induction ls with
  | nil =>
    intro c p hp fc hfc
    simp [processLines, traceOf] at hfc
  | cons l ls ih =>
    intro c p hp
    have hg := processLine_good p l hp
    rcases hpl : processLine p l with ⟨p', fr, o⟩
    rw [hpl] at hg
    cases fr with
    | some f =>
      intro fc hfc
      simp only [processLines, hpl, traceOf_cons_frame, traceOf_retryCons,
        List.mem_cons] at hfc
      rcases hfc with hfc | hfc
      · rw [hfc]
        exact hg.2 f rfl
      · exact ih _ p' hg.1 fc hfc
    | none =>
      intro fc hfc
      simp only [processLines, hpl, traceOf_retryCons] at hfc
      exact ih _ p' hg.1 fc hfc

/-- Chunk-level version of the trace properties: each chunk starts from
the freshly reset pending state. -/
theorem processChunk_trace (c : Option (List Char)) (buf : List Char) (ch : String) :
    traceOK c (traceOf (processChunk c buf ch).2.2) ∧
    (processChunk c buf ch).1 = endCursor c (traceOf (processChunk c buf ch).2.2) ∧
    ∀ fc ∈ traceOf (processChunk c buf ch).2.2, fc.1.id ≠ some [] := by
  have h1 := processLines_trace (splitNl (buf ++ ch.toList)).dropLast c initPending
  have h2 := processLines_good (splitNl (buf ++ ch.toList)).dropLast c initPending
    (by simp [initPending])
  exact ⟨h1.1, h1.2, h2⟩

/-- Whole-stream version of the trace properties, for any starting
cursor and partial-line buffer. -/
theorem processChunksAux_trace (chunks : List String) :
    ∀ c buf, traceOK c (traceOf (processChunksAux c buf chunks).2.2) ∧
    (processChunksAux c buf chunks).1 =
      endCursor c (traceOf (processChunksAux c buf chunks).2.2) ∧
    ∀ fc ∈ traceOf (processChunksAux c buf chunks).2.2, fc.1.id ≠ some [] := by
  induction chunks with
  | nil =>
    intro c buf
    exact ⟨trivial, rfl, by intro fc h; simp [processChunksAux, traceOf] at h⟩
  | cons ch rest ih =>
    intro c buf
    have hc := processChunk_trace c buf ch
    have hr := ih (processChunk c buf ch).1 (processChunk c buf ch).2.1
    have hsplit : (processChunksAux c buf (ch :: rest)).2.2 =
        (processChunk c buf ch).2.2 ++
        (processChunksAux (processChunk c buf ch).1 (processChunk c buf ch).2.1
          rest).2.2 := by
      simp only [processChunksAux]
    refine ⟨?_, ?_, ?_⟩
    · rw [hsplit, traceOf_append]
      refine traceOK_append hc.1 ?_
      rw [← hc.2.1]
      exact hr.1
    · have hfst : (processChunksAux c buf (ch :: rest)).1 =
          (processChunksAux (processChunk c buf ch).1 (processChunk c buf ch).2.1
            rest).1 := by
        simp only [processChunksAux]
      rw [hfst, hsplit, traceOf_append, endCursor_append, ← hc.2.1]
      exact hr.2.1
    · intro fc hfc
      rw [hsplit, traceOf_append, List.mem_append] at hfc
      rcases hfc with hfc | hfc
      · exact hc.2.2 fc hfc
      · exact hr.2.2 fc hfc

/-- C1: along any chunked stream, every dispatched frame with a truthy
(non-null, non-empty) id is dispatched with the cursor already advanced
to exactly that id, frames with a null id are dispatched with the
cursor unchanged from the previous dispatch, the ids the parser
produces are never empty (so the JS truthiness guard coincides with the
null check), and the cursor after the whole run is the one recorded by
the dispatch trace (nothing else moves it). -/
theorem cursor_advances_with_dispatch (chunks : List String) :
    traceOK none (dispatchTrace chunks) ∧
    (∀ fc ∈ dispatchTrace chunks, fc.1.id ≠ some []) ∧
    (processChunks chunks).1 = endCursor none (dispatchTrace chunks) := by
  have h := processChunksAux_trace chunks none []
  exact ⟨h.1, h.2.2, h.2.1⟩

/-- C1 witness: a concrete stream with id-carrying, id-less and
control-free frames. -/
theorem cursor_advances_with_dispatch_witness :
    traceOK none (dispatchTrace ["id: 7\ndata: x\n\ndata: y\n\nid: 9\ndata: z\n\n"]) ∧
    (processChunks ["id: 7\ndata: x\n\ndata: y\n\nid: 9\ndata: z\n\n"]).1 =
      endCursor none
        (dispatchTrace ["id: 7\ndata: x\n\ndata: y\n\nid: 9\ndata: z\n\n"]) := by
  have h := cursor_advances_with_dispatch ["id: 7\ndata: x\n\ndata: y\n\nid: 9\ndata: z\n\n"]
  exact ⟨h.1, h.2.2⟩

/-- Metrics updates change only the metrics field. -/
theorem updateMetricsEvent_fields (env : Env) (st : HookState) (p : Parsed) :
    (updateMetricsEvent env st p).connectionState = st.connectionState ∧
    (updateMetricsEvent env st p).sessionHandle = st.sessionHandle ∧
    (updateMetricsEvent env st p).reconnectTimer = st.reconnectTimer ∧
    (updateMetricsEvent env st p).requestAborted = st.requestAborted := by
  unfold updateMetricsEvent
  split_ifs <;> exact ⟨rfl, rfl, rfl, rfl⟩

/-- Dispatching a frame payload never touches the connection state, the
session handle, the reconnect timer or the abort flag, and never emits
a connection-level error or reconnection effect. -/
theorem processEventData_preserves (env : Env) (st : HookState)
    (d t : String) (i : Option String) :
    (processEventData env st d t i).1.connectionState = st.connectionState ∧
    (processEventData env st d t i).1.sessionHandle = st.sessionHandle ∧
    (processEventData env st d t i).1.reconnectTimer = st.reconnectTimer ∧
    (processEventData env st d t i).1.requestAborted = st.requestAborted ∧
    ((processEventData env st d t i).2.all fun e => !connFailureEffect e) = true := by
  unfold processEventData
  cases env.decode d with
  | none => exact ⟨rfl, rfl, rfl, rfl, rfl⟩
  | some p =>
    simp only
    split_ifs <;>
      refine ⟨?_, ?_, ?_, ?_, ?_⟩ <;>
      simp [updateMetricsEvent_fields, connFailureEffect]

/-- The per-dispatch cursor update plus `processEventData` preserve the
same fields and effect discipline. -/
theorem dispatchFrame_preserves (env : Env) (st : HookState) (f : Frame) :
    (dispatchFrame env st f).1.connectionState = st.connectionState ∧
    (dispatchFrame env st f).1.sessionHandle = st.sessionHandle ∧
    (dispatchFrame env st f).1.reconnectTimer = st.reconnectTimer ∧
    (dispatchFrame env st f).1.requestAborted = st.requestAborted ∧
    ((dispatchFrame env st f).2.all fun e => !connFailureEffect e) = true := by
  obtain ⟨fe, fi, fd⟩ := f
  cases fi with
  | none => exact processEventData_preserves env st _ _ _
  | some x =>
    by_cases hx : x = []
    · simp only [dispatchFrame, if_pos hx]
      exact processEventData_preserves env st _ _ _
    · simp only [dispatchFrame, if_neg hx]
      exact processEventData_preserves env _ _ _ _

/-- Running the read-loop events preserves the connection state, the
session handle, the reconnect timer and the abort flag, and all emitted
effects stay outside the connection-error/reconnection family. -/
theorem runEvents_preserves (env : Env) (evs : List PEvent) :
    ∀ st : HookState,
    (runEvents env st evs).1.connectionState = st.connectionState ∧
    (runEvents env st evs).1.sessionHandle = st.sessionHandle ∧
    (runEvents env st evs).1.reconnectTimer = st.reconnectTimer ∧
    (runEvents env st evs).1.requestAborted = st.requestAborted ∧
    ((runEvents env st evs).2.all fun e => !connFailureEffect e) = true := by
  induction evs with
  | nil => exact fun st => ⟨rfl, rfl, rfl, rfl, rfl⟩
  | cons e rest ih =>
    intro st
    cases e with
    | frameEv f c =>
      have h1 := dispatchFrame_preserves env st f
      have h2 := ih (dispatchFrame env st f).1
      simp only [runEvents]
      refine ⟨?_, ?_, ?_, ?_, ?_⟩
      · rw [h2.1, h1.1]
      · rw [h2.2.1, h1.2.1]
      · rw [h2.2.2.1, h1.2.2.1]
      · rw [h2.2.2.2.1, h1.2.2.2.1]
      · rw [List.all_append, h1.2.2.2.2, h2.2.2.2.2]
        rfl
    | retryEv n =>
      have h2 := ih st
      simp only [runEvents]
      refine ⟨h2.1, h2.2.1, h2.2.2.1, h2.2.2.2.1, ?_⟩
      rw [List.all_cons, h2.2.2.2.2]
      rfl

/-- C7 amended: a natural stream end (reader reports `done` with no
abort requested) is a quiet exit, not an error path: no `onError`,
`onReconnectAttempt` or `onReconnectFailed` effect is produced, no
reconnect timer is set, and the state is left `Connected` with the
session handle unchanged. -/
theorem cleanStreamEnd_quiet (env : Env) (st : HookState) (chunks : List String)
    (hab : st.requestAborted = false) :
    ((sessionCleanEnd env st chunks).2.all fun e => !connFailureEffect e) = true ∧
    (sessionCleanEnd env st chunks).1.connectionState = ConnState.Connected ∧
    (sessionCleanEnd env st chunks).1.reconnectTimer = st.reconnectTimer ∧
    (sessionCleanEnd env st chunks).1.sessionHandle = st.sessionHandle := by
  obtain ⟨hc, hs, hrt, hra, heff⟩ :=
    runEvents_preserves env (processChunks chunks).2.2 (openState env st)
  have hra' : (runEvents env (openState env st) (processChunks chunks).2.2).1.requestAborted
      = false := by
    rw [hra]
    exact hab
  have hfin : finallyStep env
      (runEvents env (openState env st) (processChunks chunks).2.2).1 =
      ((runEvents env (openState env st) (processChunks chunks).2.2).1, []) := by
    unfold finallyStep
    rw [hra']
    simp
  simp only [sessionCleanEnd, hfin]
  refine ⟨?_, ?_, ?_, ?_⟩
  · rw [List.all_cons, List.append_nil, heff]
    rfl
  · rw [hc]
    rfl
  · rw [hrt]
    rfl
  · rw [hs]
    rfl

/-- C7 counterexample run: a concrete session whose stream the server
closes cleanly while the attempt budget is not exhausted and
reconnection is enabled.  The effect trace is exactly
`onOpen`/`onMessage`/`onParseError` — no error notification — the state
stays `Connected` and no reconnect is scheduled, contradicting the
claim that the error path is taken. -/
theorem cleanStreamEnd_takes_no_error_path :
    (sessionCleanEnd envRaw stAfterConnect ["data: hi\n\n"]).2 =
      [Effect.onOpen 1 none, Effect.onMessageRaw "hi" "message" none,
       Effect.onParseError "hi"] ∧
    (sessionCleanEnd envRaw stAfterConnect ["data: hi\n\n"]).1.connectionState =
      ConnState.Connected ∧
    (sessionCleanEnd envRaw stAfterConnect ["data: hi\n\n"]).1.reconnectTimer = false ∧
    envRaw.reconnectEnabled = true ∧
    stAfterConnect.reconnectAttempts < envRaw.maxReconnectAttempts := by
  refine ⟨?_, ?_, ?_, ?_, ?_⟩ <;> decide

/-- C7 amended witness: the same concrete clean-end run, through the
general theorem. -/
theorem cleanStreamEnd_quiet_witness :
    ((sessionCleanEnd envRaw stAfterConnect ["data: hi\n\n"]).2.all
      fun e => !connFailureEffect e) = true ∧
    (sessionCleanEnd envRaw stAfterConnect ["data: hi\n\n"]).1.connectionState =
      ConnState.Connected := by
  have h := cleanStreamEnd_quiet envRaw stAfterConnect ["data: hi\n\n"] (by decide)
  exact ⟨h.1, h.2.1⟩

end SSE
